import Mathlib

/-!
Shallow embedding of `src/app.py` (a Flask multiple-choice exam app).

Conventions of the embedding:
* Database tables (`Exam`, `Question`, `Answer`) are modelled as Lean lists in
  table (insertion / primary-key) order; `query.filter_by(...).all()` is
  `List.filter`, `delete()` removes the matching rows, `db.session.add` appends.
* The Flask cookie `session` dict is modelled by `SessionState`: three finite
  maps mirroring the string keys the code uses —
  `exam_{e}_mode_{s}` and `exam_{e}_start_time_{s}` (keyed by exam id AND
  student name) and `exam_{e}_question_ids` (keyed by exam id only, exactly
  as in the source).
* Timestamps are whole UTC epoch seconds (`Int`); the code truncates the float
  difference with `int(...)`.
* Python `float` fields (`pass_rate`) are modelled as `ℚ`.
* HTTP extraction glue (`request.form.get`, `.strip()` of the posted student
  name, flash messages, redirects) is outside the embedding: the functions
  receive the already-extracted values, and error redirects become `none` /
  an "error" status, matching the JSON statuses the code returns.
* `random.sample(l, k)` draws `k` elements without replacement; the random
  source is the pluggable `pick : Nat → Nat` oracle, each draw removing the
  element at index `pick i % remaining.length`.
-/

namespace ExamApp

/-- `Exam` DB model (src/app.py lines 24-31). `duration` is in minutes. -/
structure Exam where
  id : Nat
  name : String
  duration : Nat
  total_questions : Nat
  pass_rate : ℚ
  exam_date : String
  mode : String
deriving DecidableEq, Repr

/-- `Question` DB model (lines 33-38); `choices` is the pipe-joined string. -/
structure Question where
  id : Nat
  exam_id : Nat
  question_text : String
  choices : String
  correct_answer : String
deriving DecidableEq, Repr

/-- `Answer` DB model (lines 40-45), minus the autoincrement surrogate id. -/
structure Answer where
  student_name : String
  exam_id : Nat
  question_id : Nat
  selected_answer : String
deriving DecidableEq, Repr

/-- Python `str.strip()`: drop leading and trailing whitespace. -/
def strip (s : String) : String :=
  ⟨((s.data.dropWhile Char.isWhitespace).reverse.dropWhile Char.isWhitespace).reverse⟩

/-- Python `s.split(sep)` for a one-character separator, on the char list. -/
def splitCharsOn (sep : Char) : List Char → List (List Char)
  | [] => [[]]
  | c :: rest =>
    match splitCharsOn sep rest with
    | [] => if c = sep then [[], []] else [[c]]
    | h :: t => if c = sep then [] :: h :: t else (c :: h) :: t

/-- Python `s.split("|")` (the code always splits on the single char `|`). -/
def split_pipe (s : String) : List String :=
  (splitCharsOn '|' s.data).map String.mk

/-- Python `sep.join(parts)`. -/
def join_sep (sep : String) : List String → String
  | [] => ""
  | [x] => x
  | x :: y :: rest => x ++ sep ++ join_sep sep (y :: rest)

/-- The sentinel the code stores for a question the client never answered
(`"未回答"`, Japanese for "unanswered"; the spec calls it the sentinel
"unanswered"). -/
def unanswered : String := "未回答"

/-- The Flask `session` dict, restricted to the keys the app uses.
`mode` and `start_time` mirror the keys `exam_{e}_mode_{s}` /
`exam_{e}_start_time_{s}` (exam id and student name); `question_ids` mirrors
`exam_{e}_question_ids` (exam id only, as in the source). -/
structure SessionState where
  mode : Nat → String → Option String
  start_time : Nat → String → Option Int
  question_ids : Nat → Option (List Nat)

/-- The empty session (fresh cookie). -/
def SessionState.empty : SessionState :=
  ⟨fun _ _ => none, fun _ _ => none, fun _ => none⟩

/-- `session[f"exam_{e}_mode_{s}"] = m` (line 94). -/
def setMode (st : SessionState) (e : Nat) (s : String) (m : String) : SessionState :=
  { st with mode := fun e' s' => if e' = e ∧ s' = s then some m else st.mode e' s' }

/-- `session[f"exam_{e}_start_time_{s}"] = t` (line 97). -/
def setStartTime (st : SessionState) (e : Nat) (s : String) (t : Int) : SessionState :=
  { st with start_time := fun e' s' => if e' = e ∧ s' = s then some t else st.start_time e' s' }

/-- `session[f"exam_{e}_question_ids"] = ids` (line 126) — note: no student
name in the key. -/
def set_question_ids (st : SessionState) (e : Nat) (ids : List Nat) : SessionState :=
  { st with question_ids := fun e' => if e' = e then some ids else st.question_ids e' }

/-- The three `session.pop` calls at the end of `submit_exam` (lines 190-192). -/
def clearSession (st : SessionState) (e : Nat) (s : String) : SessionState :=
  { mode := fun e' s' => if e' = e ∧ s' = s then none else st.mode e' s',
    start_time := fun e' s' => if e' = e ∧ s' = s then none else st.start_time e' s',
    question_ids := fun e' => if e' = e then none else st.question_ids e' }

/-- `db.session.get(Exam, exam_id)`: primary-key lookup in the exam table. -/
def getExam (exams : List Exam) (exam_id : Nat) : Option Exam :=
  exams.find? (fun ex => decide (ex.id = exam_id))

/-- The timer computation inlined in `start_exam` (lines 99-106): in exam mode
`duration * 60 - (now - start)` clamped at 0; otherwise no timer (`None`). -/
def remaining_time (exam : Exam) (mode : String) (start now : Int) : Option Int :=
  if mode = "exam" then
    let r : Int := (exam.duration : Int) * 60 - (now - start)
    some (if r < 0 then 0 else r)
  else
    none

/-- What `start_exam` hands to the template. -/
structure StartResult where
  st : SessionState
  remaining : Option Int
  mode : String

/-- `start_exam` (lines 79-114). `none` models the flash-and-redirect error
paths (blank student name, unknown exam). The mode key is written on every
call; the start-time key only when absent. -/
def start_exam (exams : List Exam) (st : SessionState) (student : String)
    (exam_id : Nat) (mode : String) (now : Int) : Option StartResult :=
  if student = "" then none
  else
    match getExam exams exam_id with
    | none => none
    | some exam =>
      let st1 := setMode st exam_id student mode
      let st2 :=
        match st1.start_time exam_id student with
        | some _ => st1
        | none => setStartTime st1 exam_id student now
      let start := (st2.start_time exam_id student).getD now
      some ⟨st2, remaining_time exam mode start now, mode⟩

/-- One draw of sampling without replacement: remove the element at index `i`,
returning it together with the remaining list (`none` when `i` is out of
range). -/
def pickOut {α : Type} : List α → Nat → Option (α × List α)
  | [], _ => none
  | a :: l, 0 => some (a, l)
  | a :: l, n + 1 => (pickOut l n).map (fun p => (p.1, a :: p.2))

/-- `random.sample(l, k)` (line 125): `k` draws without replacement, the
random source modelled by the oracle `pick`; draw number `j` (counting down)
removes index `pick j % remaining.length`. -/
def randomSample {α : Type} (pick : Nat → Nat) : Nat → List α → List α
  | 0, _ => []
  | _ + 1, [] => []
  | k + 1, a :: l =>
    match pickOut (a :: l) (pick k % (a :: l).length) with
    | some (b, rest) => b :: randomSample pick k rest
    | none => []

/-- The JSON payload of `/load_questions` (lines 130-138). -/
structure LoadPayload where
  questions : List Question
  effective_total : Nat
  mode : String
deriving DecidableEq, Repr

/-- `load_exam_questions` (lines 116-138): select `min(total_questions, N)`
of the exam's questions at random, store their ids in the session under the
exam-only key, and report the stored (or defaulted) mode. An unknown exam
returns the empty payload without touching the session (`none` here). -/
def load_exam_questions (pick : Nat → Nat) (exams : List Exam)
    (qtable : List Question) (st : SessionState) (exam_id : Nat)
    (student : String) : SessionState × Option LoadPayload :=
  match getExam exams exam_id with
  | none => (st, none)
  | some exam =>
    let questions := qtable.filter (fun q => decide (q.exam_id = exam_id))
    let selected := randomSample pick (min exam.total_questions questions.length) questions
    let st' := set_question_ids st exam_id (selected.map (fun q => q.id))
    let mode := (st'.mode exam_id student).getD "exam"
    (st', some ⟨selected, selected.length, mode⟩)

/-- What `/submit_exam` leaves behind: the JSON status, the session, and the
Answer table. -/
structure SubmitResult where
  status : String
  st : SessionState
  tbl : List Answer

/-- `submit_exam` (lines 162-194). `answers` is the posted JSON mapping
(string question id → selected string). Absent or empty stored question-id
list → status "error", nothing changes. Otherwise: when the stored mode is
not "study", delete every Answer row for (student, exam) and insert one row
per stored question id with `answers.get(str(qid), unanswered)`; in study
mode skip the table writes. Either way the three session keys are cleared. -/
def submit_exam (st : SessionState) (tbl : List Answer) (student : String)
    (exam_id : Nat) (answers : List (String × String)) : SubmitResult :=
  let question_ids := (st.question_ids exam_id).getD []
  if question_ids = [] then
    ⟨"error", st, tbl⟩
  else
    let mode := (st.mode exam_id student).getD "exam"
    let tbl' :=
      if mode ≠ "study" then
        tbl.filter (fun a => !(decide (a.student_name = student ∧ a.exam_id = exam_id)))
          ++ question_ids.map (fun qid =>
              ⟨student, exam_id, qid, ((answers.lookup (toString qid)).getD unanswered)⟩)
      else tbl
    ⟨"ok", clearSession st exam_id student, tbl'⟩

/-- One row of the per-question breakdown `result` builds (lines 217-222). -/
structure RowResult where
  question_text : String
  selected_answer : String
  correct_answer : String
  is_correct : Bool
deriving DecidableEq, Repr

/-- What `/result` renders: score (`total`), `max_score`, pass/fail, rows. -/
structure ScoreResult where
  score : Nat
  max_score : Nat
  passed : Bool
  results : List RowResult
deriving DecidableEq, Repr

/-- `is_pass` (lines 66-67): non-strict threshold `score >= total * pass_rate`
(the Python floats modelled as rationals). -/
def is_pass (score total : Nat) (pass_rate : ℚ) : Bool :=
  decide ((total : ℚ) * pass_rate ≤ (score : ℚ))

/-- The dict comprehension `{a.question_id: a.selected_answer for a in answers}`
followed by `.get(qid, unanswered)` (lines 206, 213): later rows overwrite
earlier ones, missing key gives the sentinel. -/
def answer_map_get (answers : List Answer) (qid : Nat) : String :=
  (((answers.reverse.find? (fun a => decide (a.question_id = qid)))).map
      (fun a => a.selected_answer)).getD unanswered

/-- The questions `result` scores: the question table filtered to ids that
occur among the stored answers (line 208), in table order. -/
def matched_questions (qtable : List Question) (answers : List Answer) : List Question :=
  qtable.filter (fun q => decide (q.id ∈ answers.map (fun a => a.question_id)))

/-- The correctness test of line 214 on one matched question. -/
def graded_row (answers : List Answer) (q : Question) : RowResult :=
  let sel := answer_map_get answers q.id
  let ok := decide (¬ sel = unanswered) &&
    decide ((strip sel).toLower = (strip q.correct_answer).toLower)
  ⟨q.question_text, sel, q.correct_answer, ok⟩

/-- `result` (lines 196-234): collect the student's Answer rows, redirect
(`none`) when there are none, otherwise grade each matched question in
question-table order; score = number graded correct, max = number of matched
questions, pass by `is_pass` with the exam's pass_rate. -/
def result (qtable : List Question) (pass_rate : ℚ) (student : String)
    (exam_id : Nat) (tbl : List Answer) : Option ScoreResult :=
  let answers := tbl.filter (fun a =>
    decide (a.student_name = student ∧ a.exam_id = exam_id))
  if answers = [] then none
  else
    let questions := matched_questions qtable answers
    let rows := questions.map (graded_row answers)
    let correct := rows.countP (fun r => r.is_correct)
    some ⟨correct, questions.length, is_pass correct questions.length pass_rate, rows⟩

/-- `export_exam_csv` (lines 317-346), at the level of CSV rows (the BOM and
the byte-level CSV encoding are serialization glue): a header row, then per
question `[id, question text, choices re-joined with " | ", correct answer]`. -/
def export_rows (questions : List Question) : List (List String) :=
  ["問題ID", "問題文", "選択肢", "正解"] ::
    questions.map (fun q =>
      [toString q.id, q.question_text,
        join_sep " | " (split_pipe q.choices), q.correct_answer])

/-- The per-row body of `load_questions_from_csv_obj` (lines 53-61): skip rows
with fewer than two cells or all-blank rows; otherwise column 0 (stripped) is
the text, the stripped non-blank middle cells pipe-joined are the choices,
the last cell (stripped) is the correct answer. -/
def parse_csv_row (row : List String) : Option (String × String × String) :=
  if row.length < 2 ∨ row.all (fun cell => strip cell = "") then none
  else
    some (strip (row.headD ""),
      join_sep "|" (((row.drop 1).dropLast).map strip |>.filter (fun c => ¬ c = "")),
      strip (row.getLastD ""))

/-- `load_questions_from_csv_obj` (lines 48-63) at row level: skip the header
row, parse each remaining row, and build Question records for `exam_id` (the
autoincrement ids are irrelevant to the stored content and set to 0). -/
def load_questions_from_rows (rows : List (List String)) (exam_id : Nat) :
    List Question :=
  (rows.drop 1).filterMap (fun row =>
    (parse_csv_row row).map (fun p => ⟨0, exam_id, p.1, p.2.1, p.2.2⟩))

/-! ### Fixtures used by the concrete witnesses and counterexamples -/

/-- A concrete exam: 60 minutes, 5 questions targeted, pass rate 3/5. -/
def exam1 : Exam := ⟨1, "Sample", 60, 5, 3/5, "2026-01-01", "exam"⟩

/-! ### C3: the timer -/

/-- C3: for a started attempt in exam mode the remaining time is
`duration * 60 - (now - start)` whole seconds floored at 0, hence never
negative, and it is non-increasing as `now` grows with `start` fixed; in
study mode it is null for every `now`. -/
theorem remaining_time_spec (exam : Exam) (start now now' : Int)
    (h : now ≤ now') :
    remaining_time exam "exam" start now
        = some (max 0 ((exam.duration : Int) * 60 - (now - start))) ∧
    (∀ r, remaining_time exam "exam" start now = some r → 0 ≤ r) ∧
    (∀ r r', remaining_time exam "exam" start now = some r →
        remaining_time exam "exam" start now' = some r' → r' ≤ r) ∧
    remaining_time exam "study" start now = none := by
  have hx : ∀ t : Int, remaining_time exam "exam" start t
      = some (if (exam.duration : Int) * 60 - (t - start) < 0 then 0
              else (exam.duration : Int) * 60 - (t - start)) := by
    intro t
    simp [remaining_time]
  refine ⟨?_, ?_, ?_, rfl⟩
  · rw [hx]
    congr 1
    split <;> omega
  · intro r hr
    rw [hx, Option.some.injEq] at hr
    split at hr <;> omega
  · intro r r' hr hr'
    rw [hx, Option.some.injEq] at hr
    rw [hx, Option.some.injEq] at hr'
    split at hr <;> split at hr' <;> omega

/-- Witness for C3 at a concrete input. -/
theorem remaining_time_spec_witness :
    (10 : Int) ≤ 20 ∧
    remaining_time exam1 "exam" 0 10
      = some (max 0 ((exam1.duration : Int) * 60 - (10 - 0))) :=
  ⟨by decide, (remaining_time_spec exam1 0 10 20 (by decide)).1⟩

/-! ### C10: submission without a stored question-id sequence -/

/-- C10: when the stored question-id list for the exam is absent or empty,
`submit_exam` reports "error" and changes nothing: the Answer table and the
whole session (hence its start_time and mode entries) are untouched. -/
theorem submit_exam_no_session (st : SessionState) (tbl : List Answer)
    (student : String) (exam_id : Nat) (answers : List (String × String))
    (h : (st.question_ids exam_id).getD [] = []) :
    (submit_exam st tbl student exam_id answers).status = "error" ∧
    (submit_exam st tbl student exam_id answers).tbl = tbl ∧
    (submit_exam st tbl student exam_id answers).st = st := by
  simp [submit_exam, h]

/-- Witness for C10 on the empty session. -/
theorem submit_exam_no_session_witness :
    (SessionState.empty.question_ids 1).getD [] = [] ∧
    (submit_exam SessionState.empty [⟨"s", 1, 3, "A"⟩] "s" 1 []).status = "error" ∧
    (submit_exam SessionState.empty [⟨"s", 1, 3, "A"⟩] "s" 1 []).tbl
      = [⟨"s", 1, 3, "A"⟩] :=
  ⟨rfl,
    (submit_exam_no_session SessionState.empty [⟨"s", 1, 3, "A"⟩] "s" 1 [] rfl).1,
    (submit_exam_no_session SessionState.empty [⟨"s", 1, 3, "A"⟩] "s" 1 [] rfl).2.1⟩

/-! ### C7: study-mode submission -/

/-- C7: a submission whose stored mode is "study" and whose question-id list
is present and non-empty leaves the Answer table exactly as it was, yet
removes the start_time, question-id and mode session entries for the
attempt. -/
theorem submit_exam_study (st : SessionState) (tbl : List Answer)
    (student : String) (e : Nat) (answers : List (String × String))
    (qs : List Nat) (hq : st.question_ids e = some qs) (hne : qs ≠ [])
    (hm : st.mode e student = some "study") :
    (submit_exam st tbl student e answers).status = "ok" ∧
    (submit_exam st tbl student e answers).tbl = tbl ∧
    (submit_exam st tbl student e answers).st.start_time e student = none ∧
    (submit_exam st tbl student e answers).st.question_ids e = none ∧
    (submit_exam st tbl student e answers).st.mode e student = none := by
  simp [submit_exam, hq, hne, hm, clearSession]

/-- Witness for C7 on a concrete study-mode session. -/
theorem submit_exam_study_witness :
    ((setMode (set_question_ids SessionState.empty 1 [4]) 1 "s" "study").question_ids 1
        = some [4]) ∧
    ([4] : List Nat) ≠ [] ∧
    ((setMode (set_question_ids SessionState.empty 1 [4]) 1 "s" "study").mode 1 "s"
        = some "study") ∧
    (submit_exam (setMode (set_question_ids SessionState.empty 1 [4]) 1 "s" "study")
        [⟨"s", 1, 4, "A"⟩] "s" 1 [("4", "B")]).tbl = [⟨"s", 1, 4, "A"⟩] :=
  ⟨by decide, by decide, by decide,
    (submit_exam_study (setMode (set_question_ids SessionState.empty 1 [4]) 1 "s" "study")
      [⟨"s", 1, 4, "A"⟩] "s" 1 [("4", "B")] [4]
      (by decide) (by decide) (by decide)).2.1⟩

/-! ### C1: exam-mode submission replaces the student's rows -/

/-- The Answer rows one submission inserts for the stored sequence `qs`. -/
def inserted_rows (student : String) (e : Nat) (answers : List (String × String))
    (qs : List Nat) : List Answer :=
  qs.map (fun qid =>
    ⟨student, e, qid, ((answers.lookup (toString qid)).getD unanswered)⟩)

/-- C1: an exam-mode submission with a stored non-empty question-id sequence
succeeds and leaves, as the student's rows for the exam, exactly one row per
stored question id (in order), carrying the submitted string for that id or
the sentinel; in particular the student's row count equals the length of the
stored sequence no matter what rows existed before, so resubmitting never
grows it. -/
theorem submit_exam_replaces (st : SessionState) (tbl : List Answer)
    (student : String) (e : Nat) (answers : List (String × String))
    (qs : List Nat) (hq : st.question_ids e = some qs) (hne : qs ≠ [])
    (hm : (st.mode e student).getD "exam" = "exam") :
    (submit_exam st tbl student e answers).status = "ok" ∧
    (submit_exam st tbl student e answers).tbl.filter
        (fun a => decide (a.student_name = student ∧ a.exam_id = e))
      = inserted_rows student e answers qs ∧
    ((submit_exam st tbl student e answers).tbl.filter
        (fun a => decide (a.student_name = student ∧ a.exam_id = e))).map
        (fun a => a.question_id) = qs ∧
    ((submit_exam st tbl student e answers).tbl.filter
        (fun a => decide (a.student_name = student ∧ a.exam_id = e))).length
      = qs.length := by
  have hmain : (submit_exam st tbl student e answers).tbl.filter
      (fun a => decide (a.student_name = student ∧ a.exam_id = e))
      = inserted_rows student e answers qs := by
    simp only [submit_exam, hq, Option.getD_some, if_neg hne, hm]
    rw [if_pos (by decide)]
    rw [List.filter_append]
    have h1 : (tbl.filter (fun a =>
        !(decide (a.student_name = student ∧ a.exam_id = e)))).filter
        (fun a => decide (a.student_name = student ∧ a.exam_id = e)) = [] := by
      rw [List.filter_filter]
      apply List.filter_eq_nil_iff.mpr
      intro a _
      simp
    have h2 : (qs.map (fun qid =>
        (⟨student, e, qid, ((answers.lookup (toString qid)).getD unanswered)⟩ :
          Answer))).filter
        (fun a => decide (a.student_name = student ∧ a.exam_id = e))
        = qs.map (fun qid =>
          ⟨student, e, qid, ((answers.lookup (toString qid)).getD unanswered)⟩) := by
      apply List.filter_eq_self.mpr
      intro a ha
      obtain ⟨qid, _, rfl⟩ := List.mem_map.mp ha
      simp
    rw [h1, h2, List.nil_append]
    rfl
  refine ⟨?_, hmain, ?_, ?_⟩
  · simp only [submit_exam, hq, Option.getD_some, if_neg hne]
  · rw [hmain]
    rw [inserted_rows, List.map_map]
    exact List.map_id' qs
  · rw [hmain]
    simp [inserted_rows]

/-- Witness for C1: submit over a table holding an old row for the student;
afterwards their rows are exactly the two inserted ones, the second falling
back to the sentinel. -/
theorem submit_exam_replaces_witness :
    ((set_question_ids SessionState.empty 1 [1, 2]).question_ids 1 = some [1, 2]) ∧
    ([1, 2] : List Nat) ≠ [] ∧
    ((submit_exam (set_question_ids SessionState.empty 1 [1, 2])
        [⟨"s", 1, 7, "old"⟩] "s" 1 [("1", "A")]).tbl.filter
        (fun a => decide (a.student_name = "s" ∧ a.exam_id = 1))
      = inserted_rows "s" 1 [("1", "A")] [1, 2]) ∧
    inserted_rows "s" 1 [("1", "A")] [1, 2]
      = [⟨"s", 1, 1, "A"⟩, ⟨"s", 1, 2, unanswered⟩] :=
  ⟨by decide, by decide,
    (submit_exam_replaces (set_question_ids SessionState.empty 1 [1, 2])
      [⟨"s", 1, 7, "old"⟩] "s" 1 [("1", "A")] [1, 2]
      (by decide) (by decide) (by decide)).2.1,
    by decide⟩

/-! ### C6: the question selector -/

theorem pickOut_isSome {α : Type} (xs : List α) (i : Nat) (h : i < xs.length) :
    ∃ a rest, pickOut xs i = some (a, rest) := by
  induction xs generalizing i with
  | nil => simp at h
  | cons b l ih =>
    cases i with
    | zero => exact ⟨b, l, rfl⟩
    | succ n =>
      obtain ⟨a, r, hr⟩ := ih n (by simpa using h)
      exact ⟨a, b :: r, by simp [pickOut, hr]⟩

theorem pickOut_perm {α : Type} {xs : List α} {i : Nat} {a : α} {rest : List α}
    (h : pickOut xs i = some (a, rest)) : xs.Perm (a :: rest) := by
  induction xs generalizing i a rest with
  | nil => simp [pickOut] at h
  | cons b l ih =>
    cases i with
    | zero =>
      simp only [pickOut, Option.some.injEq, Prod.mk.injEq] at h
      obtain ⟨rfl, rfl⟩ := h
      exact List.Perm.refl _
    | succ n =>
      simp only [pickOut, Option.map_eq_some'] at h
      obtain ⟨⟨a', r⟩, hr, heq⟩ := h
      obtain ⟨rfl, rfl⟩ := Prod.mk.injEq .. |>.mp heq
      exact ((ih hr).cons b).trans (List.Perm.swap a' b r)

theorem randomSample_length {α : Type} (pick : Nat → Nat) :
    ∀ (k : Nat) (xs : List α), (randomSample pick k xs).length = min k xs.length := by
  intro k
  induction k with
  | zero => intro xs; simp [randomSample]
  | succ k ih =>
    intro xs
    cases xs with
    | nil => simp [randomSample]
    | cons a l =>
      have hlt : pick k % (a :: l).length < (a :: l).length :=
        Nat.mod_lt _ (by simp)
      obtain ⟨b, rest, hb⟩ := pickOut_isSome _ _ hlt
      have hlen : rest.length + 1 = (a :: l).length := by
        have := (pickOut_perm hb).length_eq
        simpa using this.symm
      rw [randomSample, hb]
      show (b :: randomSample pick k rest).length = _
      simp only [List.length_cons] at hlen
      simp only [List.length_cons, ih]
      omega

theorem randomSample_subset {α : Type} (pick : Nat → Nat) :
    ∀ (k : Nat) (xs : List α), ∀ b ∈ randomSample pick k xs, b ∈ xs := by
  intro k
  induction k with
  | zero => intro xs b hb; simp [randomSample] at hb
  | succ k ih =>
    intro xs b hb
    cases xs with
    | nil => simp [randomSample] at hb
    | cons a l =>
      have hlt : pick k % (a :: l).length < (a :: l).length :=
        Nat.mod_lt _ (by simp)
      obtain ⟨c, rest, hc⟩ := pickOut_isSome _ _ hlt
      rw [randomSample, hc] at hb
      have hperm := pickOut_perm hc
      rcases List.mem_cons.mp hb with rfl | hb'
      · exact hperm.symm.subset (List.mem_cons_self _ _)
      · exact hperm.symm.subset (List.mem_cons_of_mem _ (ih rest b hb'))

theorem randomSample_nodup {α : Type} (pick : Nat → Nat) :
    ∀ (k : Nat) (xs : List α), xs.Nodup → (randomSample pick k xs).Nodup := by
  intro k
  induction k with
  | zero => intro xs _; simp [randomSample]
  | succ k ih =>
    intro xs hnd
    cases xs with
    | nil => simp [randomSample]
    | cons a l =>
      have hlt : pick k % (a :: l).length < (a :: l).length :=
        Nat.mod_lt _ (by simp)
      obtain ⟨c, rest, hc⟩ := pickOut_isSome _ _ hlt
      have hperm := pickOut_perm hc
      have hcd : (c :: rest).Nodup := hperm.nodup_iff.mp hnd
      rw [randomSample, hc]
      exact List.nodup_cons.mpr
        ⟨fun hmem => (List.nodup_cons.mp hcd).1 (randomSample_subset pick k rest c hmem),
          ih rest (List.nodup_cons.mp hcd).2⟩

theorem pickOut_map {α β : Type} (f : α → β) :
    ∀ (xs : List α) (i : Nat),
      pickOut (xs.map f) i = (pickOut xs i).map (fun p => (f p.1, p.2.map f)) := by
  intro xs
  induction xs with
  | nil => intro i; simp [pickOut]
  | cons b l ih =>
    intro i
    cases i with
    | zero => simp [pickOut]
    | succ n =>
      simp only [List.map_cons, pickOut, ih n]
      cases pickOut l n <;> simp

theorem randomSample_map {α β : Type} (pick : Nat → Nat) (f : α → β) :
    ∀ (k : Nat) (xs : List α),
      (randomSample pick k xs).map f = randomSample pick k (xs.map f) := by
  intro k
  induction k with
  | zero => intro xs; simp [randomSample]
  | succ k ih =>
    intro xs
    cases xs with
    | nil => simp [randomSample]
    | cons a l =>
      have hlt : pick k % (a :: l).length < (a :: l).length :=
        Nat.mod_lt _ (by simp)
      obtain ⟨c, rest, hc⟩ := pickOut_isSome _ _ hlt
      have hmap : pickOut ((a :: l).map f) (pick k % ((a :: l).map f).length)
          = some (f c, rest.map f) := by
        rw [List.length_map, pickOut_map f, hc]
        rfl
      rw [randomSample, hc]
      conv_rhs => rw [List.map_cons]
      rw [randomSample]
      rw [show ((f a :: l.map f) : List β) = (a :: l).map f from by simp, hmap]
      simp [ih rest]

/-- C6: when the exam resolves and the question table has no duplicate ids,
the selection stored and returned by `load_exam_questions` has exactly
`min(total_questions, N)` questions (`N` the size of the exam's question
set), carries no duplicate ids, and draws only questions of that exam. -/
theorem load_exam_questions_spec (pick : Nat → Nat) (exams : List Exam)
    (qtable : List Question) (st : SessionState) (e : Nat) (student : String)
    (exam : Exam) (hex : getExam exams e = some exam)
    (hnd : (qtable.map (fun q => q.id)).Nodup) :
    ∃ payload, (load_exam_questions pick exams qtable st e student).2 = some payload ∧
      payload.questions.length
        = min exam.total_questions
            (qtable.filter (fun q => decide (q.exam_id = e))).length ∧
      (payload.questions.map (fun q => q.id)).Nodup ∧
      (∀ q ∈ payload.questions, q.exam_id = e ∧ q ∈ qtable) := by
  simp only [load_exam_questions, hex]
  refine ⟨_, rfl, ?_, ?_, ?_⟩
  · show (randomSample pick
        (min exam.total_questions
          (qtable.filter (fun q => decide (q.exam_id = e))).length)
        (qtable.filter (fun q => decide (q.exam_id = e)))).length = _
    rw [randomSample_length]
    omega
  · rw [randomSample_map]
    refine randomSample_nodup pick _ _ ?_
    exact hnd.sublist ((qtable.filter_sublist).map (fun q => q.id))
  · intro q hq
    have hmem := randomSample_subset pick _ _ q hq
    have := List.mem_filter.mp hmem
    exact ⟨by simpa using this.2, this.1⟩

/-- Witness for C6: a two-question exam with target 1; the selection picks
one question of the exam with distinct ids. -/
theorem load_exam_questions_spec_witness :
    (getExam [⟨1, "E", 60, 1, 3/5, "", "exam"⟩] 1 = some ⟨1, "E", 60, 1, 3/5, "", "exam"⟩) ∧
    (([(⟨10, 1, "QA", "x|y", "x"⟩ : Question), ⟨20, 1, "QB", "x|y", "x"⟩].map
        (fun q => q.id)).Nodup) ∧
    ∃ payload,
      (load_exam_questions (fun _ => 0) [⟨1, "E", 60, 1, 3/5, "", "exam"⟩]
          [⟨10, 1, "QA", "x|y", "x"⟩, ⟨20, 1, "QB", "x|y", "x"⟩]
          SessionState.empty 1 "s").2 = some payload ∧
      payload.questions.length
        = min (1 : Nat)
            ([(⟨10, 1, "QA", "x|y", "x"⟩ : Question), ⟨20, 1, "QB", "x|y", "x"⟩].filter
              (fun q => decide (q.exam_id = 1))).length ∧
      (payload.questions.map (fun q => q.id)).Nodup ∧
      (∀ q ∈ payload.questions, q.exam_id = 1 ∧
        q ∈ [(⟨10, 1, "QA", "x|y", "x"⟩ : Question), ⟨20, 1, "QB", "x|y", "x"⟩]) :=
  ⟨rfl, by decide,
    load_exam_questions_spec (fun _ => 0) [⟨1, "E", 60, 1, 3/5, "", "exam"⟩]
      [⟨10, 1, "QA", "x|y", "x"⟩, ⟨20, 1, "QB", "x|y", "x"⟩]
      SessionState.empty 1 "s" ⟨1, "E", 60, 1, 3/5, "", "exam"⟩
      rfl (by decide)⟩

/-! ### C4: repeated start -/

/-- C4 counterexample: start with mode "exam" at time 100, then start again
requesting "study" at time 200 — the start_timestamp is kept (100) but the
stored mode becomes "study", not the mode recorded on the first start. -/
theorem start_exam_mode_restamped_cex :
    (Option.map (fun r1 =>
        Option.map (fun r2 => (r2.st.mode 1 "s", r2.st.start_time 1 "s"))
          (start_exam [exam1] r1.st "s" 1 "study" 200))
      (start_exam [exam1] SessionState.empty "s" 1 "exam" 100))
      = some (some (some "study", some 100)) ∧
    some "study" ≠ some "exam" := by
  constructor
  · rfl
  · decide

/-- C4 amended: for an existing session, calling start again keeps the stored
start_timestamp unchanged (the timer does not reset), but the stored mode is
re-stamped with the newly requested mode on every call. -/
theorem start_exam_repeat (exams : List Exam) (st : SessionState)
    (student : String) (e : Nat) (mode : String) (now t0 : Int) (exam : Exam)
    (hs : ¬ student = "") (hex : getExam exams e = some exam)
    (ht : st.start_time e student = some t0) :
    ∃ r, start_exam exams st student e mode now = some r ∧
      r.st.start_time e student = some t0 ∧
      r.st.mode e student = some mode := by
  have hst1 : (setMode st e student mode).start_time e student = some t0 := ht
  simp only [start_exam, if_neg hs, hex, hst1]
  exact ⟨_, rfl, hst1, by simp [setMode]⟩

/-- Witness for C4 amended on a concrete pre-existing session. -/
theorem start_exam_repeat_witness :
    (¬ ("s" : String) = "") ∧
    (getExam [exam1] 1 = some exam1) ∧
    ((setStartTime (setMode SessionState.empty 1 "s" "exam") 1 "s" 100).start_time 1 "s"
      = some 100) ∧
    ∃ r, start_exam [exam1]
        (setStartTime (setMode SessionState.empty 1 "s" "exam") 1 "s" 100)
        "s" 1 "study" 200 = some r ∧
      r.st.start_time 1 "s" = some 100 ∧
      r.st.mode 1 "s" = some "study" :=
  ⟨by decide, rfl, by decide,
    start_exam_repeat [exam1]
      (setStartTime (setMode SessionState.empty 1 "s" "exam") 1 "s" 100)
      "s" 1 "study" 200 100 exam1 (by decide) rfl (by decide)⟩

/-! ### C5: session keying -/

/-- A one-question-target exam used to exhibit the shared question-id key. -/
def examC5 : Exam := ⟨1, "E", 60, 1, 3/5, "", "exam"⟩

/-- The two questions of `examC5`. -/
def qtC5 : List Question := [⟨10, 1, "QA", "x|y", "x"⟩, ⟨20, 1, "QB", "x|y", "x"⟩]

/-- C5 counterexample: student "A" loads the exam (the random source picks
question 10) and the session stores [10]; student "B" then loads the same
exam in the same session store (picking question 20), and the single
exam-keyed entry now holds [20]; a subsequent submission by "A" inserts a row
for question 20 — "B"'s selection, not "A"'s. -/
theorem question_ids_shared_cex :
    ((load_exam_questions (fun _ => 0) [examC5] qtC5 SessionState.empty 1 "A").1.question_ids 1
        = some [10]) ∧
    ((load_exam_questions (fun _ => 1) [examC5] qtC5
        (load_exam_questions (fun _ => 0) [examC5] qtC5 SessionState.empty 1 "A").1
        1 "B").1.question_ids 1 = some [20]) ∧
    ((submit_exam
        (load_exam_questions (fun _ => 1) [examC5] qtC5
          (load_exam_questions (fun _ => 0) [examC5] qtC5 SessionState.empty 1 "A").1
          1 "B").1
        [] "A" 1 []).tbl = [⟨"A", 1, 20, unanswered⟩]) ∧
    (⟨"A", 1, 20, unanswered⟩ : Answer) ≠ ⟨"A", 1, 10, unanswered⟩ := by
  refine ⟨rfl, rfl, rfl, by decide⟩

/-- C5 amended: the mode and start_timestamp session entries are keyed by the
composite (exam, student) — writing one key leaves every other (exam,
student) pair unchanged — but the question-id sequence is keyed by the exam
alone: storing a selection for an exam overwrites the single sequence shared
by every student of that exam (while leaving other exams' sequences
unchanged), and submission resolves that shared per-exam sequence. -/
theorem session_keying (st : SessionState) (e e' : Nat) (s s' : String)
    (m : String) (t : Int) (ids : List Nat)
    (hk : ¬ (e' = e ∧ s' = s)) (he : ¬ e' = e) :
    (setMode st e s m).mode e' s' = st.mode e' s' ∧
    (setMode st e s m).mode e s = some m ∧
    (setStartTime st e s t).start_time e' s' = st.start_time e' s' ∧
    (setStartTime st e s t).start_time e s = some t ∧
    (set_question_ids st e ids).question_ids e' = st.question_ids e' ∧
    (set_question_ids st e ids).question_ids e = some ids ∧
    (∀ s₂ tbl answers, ids ≠ [] →
      (submit_exam (set_question_ids st e ids) tbl s₂ e answers).tbl
        = (if ((set_question_ids st e ids).mode e s₂).getD "exam" ≠ "study" then
            tbl.filter (fun a => !(decide (a.student_name = s₂ ∧ a.exam_id = e)))
              ++ inserted_rows s₂ e answers ids
          else tbl)) := by
  refine ⟨by simp [setMode, hk], by simp [setMode],
    by simp [setStartTime, hk], by simp [setStartTime],
    by simp [set_question_ids, he], by simp [set_question_ids], ?_⟩
  intro s₂ tbl answers hne
  have hq : (set_question_ids st e ids).question_ids e = some ids := by
    simp [set_question_ids]
  simp only [submit_exam, hq, Option.getD_some, if_neg hne]
  split <;> rfl

/-- Witness for C5 amended at concrete keys (exam 2 vs exam 1, student "t"
vs student "s"). -/
theorem session_keying_witness :
    (¬ ((2 : Nat) = 1 ∧ ("t" : String) = "s")) ∧
    (¬ (2 : Nat) = 1) ∧
    ((setMode SessionState.empty 1 "s" "study").mode 2 "t"
      = SessionState.empty.mode 2 "t") ∧
    ((set_question_ids SessionState.empty 1 [5]).question_ids 2
      = SessionState.empty.question_ids 2) ∧
    ((set_question_ids SessionState.empty 1 [5]).question_ids 1 = some [5]) :=
  ⟨by decide, by decide,
    (session_keying SessionState.empty 1 2 "s" "t" "study" 0 [5]
      (by decide) (by decide)).1,
    (session_keying SessionState.empty 1 2 "s" "t" "study" 0 [5]
      (by decide) (by decide)).2.2.2.2.1,
    (session_keying SessionState.empty 1 2 "s" "t" "study" 0 [5]
      (by decide) (by decide)).2.2.2.2.2.1⟩

/-! ### C2: scoring -/

/-- C2 counterexample: a single stored answer whose question id (5) resolves
to no stored question — `result` reports max 0, not the number of stored
answers (1), and scores over the matched questions only. -/
theorem result_max_score_cex :
    Option.map (fun r => r.max_score)
        (result [] (3/5) "s" 1 [⟨"s", 1, 5, "X"⟩]) = some 0 ∧
    ([(⟨"s", 1, 5, "X"⟩ : Answer)]).length = 1 ∧
    (0 : Nat) ≠ 1 := by
  refine ⟨rfl, rfl, by decide⟩

/-- C2 amended: for a non-empty stored answer list, `result` marks a graded
question correct iff its selected value is not the sentinel and matches the
correct answer after trimming and lowercasing; the score counts the correct
rows; the reported maximum equals the number of STORED QUESTIONS whose id
occurs among the answers (not the number of stored answers); pass holds iff
`score >= max * pass_rate` non-strictly, so 3 of 5 at rate 3/5 passes while
2 of 5 fails. -/
theorem result_eval_spec (qtable : List Question) (rate : ℚ) (student : String)
    (e : Nat) (tbl : List Answer)
    (h : tbl.filter (fun a => decide (a.student_name = student ∧ a.exam_id = e)) ≠ []) :
    ∃ r, result qtable rate student e tbl = some r ∧
      (∀ row ∈ r.results, row.is_correct = true ↔
        (¬ row.selected_answer = unanswered ∧
          (strip row.selected_answer).toLower = (strip row.correct_answer).toLower)) ∧
      r.score = r.results.countP (fun row => row.is_correct) ∧
      r.max_score = (matched_questions qtable
        (tbl.filter (fun a => decide (a.student_name = student ∧ a.exam_id = e)))).length ∧
      (r.passed = true ↔ (r.max_score : ℚ) * rate ≤ (r.score : ℚ)) ∧
      is_pass 3 5 (3/5) = true ∧ is_pass 2 5 (3/5) = false := by
  simp only [result, if_neg h]
  refine ⟨_, rfl, ?_, rfl, rfl, ?_, ?_, ?_⟩
  · intro row hrow
    obtain ⟨q, _, rfl⟩ := List.mem_map.mp hrow
    simp [graded_row]
  · simp [is_pass]
  · simp only [is_pass, decide_eq_true_eq]
    norm_num
  · simp only [is_pass, decide_eq_false_iff_not]
    norm_num

/-- Witness for C2 amended: one stored question, one stored answer matching
its correct answer up to case and spacing. -/
theorem result_eval_spec_witness :
    ([(⟨"s", 1, 1, " b "⟩ : Answer)].filter
        (fun a => decide (a.student_name = "s" ∧ a.exam_id = 1)) ≠ []) ∧
    result [⟨1, 1, "Q", "A|B", "B"⟩] (3/5) "s" 1 [⟨"s", 1, 1, " b "⟩] ≠ none := by
  have hmain := result_eval_spec [⟨1, 1, "Q", "A|B", "B"⟩] (3/5) "s" 1
    [⟨"s", 1, 1, " b "⟩] (by decide)
  obtain ⟨r, hr, -⟩ := hmain
  exact ⟨by decide, by simp [hr]⟩

/-! ### C9: breakdown order -/

/-- C9 counterexample: answers stored in the order (question 2, question 1),
yet the breakdown lists question 1 ("A") first — the order is the question
table's, not the order the Answer rows were stored. -/
theorem result_order_cex :
    (([(⟨"s", 1, 2, "x"⟩ : Answer), ⟨"s", 1, 1, "y"⟩].filter
        (fun a => decide (a.student_name = "s" ∧ a.exam_id = 1))).map
        (fun a => a.question_id) = [2, 1]) ∧
    (Option.map (fun r => r.results.map (fun row => row.question_text))
        (result [⟨1, 1, "A", "x|y", "x"⟩, ⟨2, 1, "B", "x|y", "x"⟩] (3/5) "s" 1
          [⟨"s", 1, 2, "x"⟩, ⟨"s", 1, 1, "y"⟩]) = some ["A", "B"]) ∧
    (["A", "B"] : List String) ≠ ["B", "A"] := by
  refine ⟨rfl, rfl, by decide⟩

/-- C9 amended: for a non-empty stored answer list the breakdown has one row
per matched stored question, in the question table's order (not the order
the Answer rows were stored): its texts are exactly the matched questions'
texts in table order. -/
theorem result_order_spec (qtable : List Question) (rate : ℚ) (student : String)
    (e : Nat) (tbl : List Answer)
    (h : tbl.filter (fun a => decide (a.student_name = student ∧ a.exam_id = e)) ≠ []) :
    ∃ r, result qtable rate student e tbl = some r ∧
      r.results = (matched_questions qtable
          (tbl.filter (fun a => decide (a.student_name = student ∧ a.exam_id = e)))).map
        (graded_row
          (tbl.filter (fun a => decide (a.student_name = student ∧ a.exam_id = e)))) ∧
      r.results.map (fun row => row.question_text)
        = (matched_questions qtable
            (tbl.filter (fun a => decide (a.student_name = student ∧ a.exam_id = e)))).map
          (fun q => q.question_text) := by
  simp only [result, if_neg h]
  refine ⟨_, rfl, rfl, ?_⟩
  rw [List.map_map]
  rfl

/-- Witness for C9 amended on the two-question fixture. -/
theorem result_order_spec_witness :
    (([(⟨"s", 1, 2, "x"⟩ : Answer), ⟨"s", 1, 1, "y"⟩].filter
        (fun a => decide (a.student_name = "s" ∧ a.exam_id = 1))) ≠ []) ∧
    ∃ r, result [⟨1, 1, "A", "x|y", "x"⟩, ⟨2, 1, "B", "x|y", "x"⟩] (3/5) "s" 1
        [⟨"s", 1, 2, "x"⟩, ⟨"s", 1, 1, "y"⟩] = some r ∧
      r.results.map (fun row => row.question_text)
        = (matched_questions [⟨1, 1, "A", "x|y", "x"⟩, ⟨2, 1, "B", "x|y", "x"⟩]
            ([(⟨"s", 1, 2, "x"⟩ : Answer), ⟨"s", 1, 1, "y"⟩].filter
              (fun a => decide (a.student_name = "s" ∧ a.exam_id = 1)))).map
          (fun q => q.question_text) := by
  have hmain := result_order_spec [⟨1, 1, "A", "x|y", "x"⟩, ⟨2, 1, "B", "x|y", "x"⟩]
    (3/5) "s" 1 [⟨"s", 1, 2, "x"⟩, ⟨"s", 1, 1, "y"⟩] (by decide)
  obtain ⟨r, hr, -, htext⟩ := hmain
  exact ⟨by decide, r, hr, htext⟩

/-! ### C8: export / re-ingest round trip -/

/-- The fixture question for the round-trip counterexample. -/
def qC8 : Question := ⟨1, 1, "Q1", "A|B|C", "B"⟩

/-- C8 counterexample: exporting the one-question bank `[qC8]` and
re-ingesting the rows yields a question whose text is "1" (the exported id
column), not "Q1", and whose choice set contains "Q1" (the exported text
cell) — an element the original choice set does not have; only the correct
answer "B" survives. -/
theorem export_reingest_cex :
    ((load_questions_from_rows (export_rows [qC8]) 1).map (fun q => q.question_text)
      = ["1"]) ∧
    ¬ ("1" : String) = "Q1" ∧
    ((load_questions_from_rows (export_rows [qC8]) 1).map (fun q => split_pipe q.choices)
      = [["Q1", "A ", " B ", " C"]]) ∧
    ("Q1" ∈ (["Q1", "A ", " B ", " C"] : List String)) ∧
    ¬ ("Q1" ∈ split_pipe qC8.choices) ∧
    ((load_questions_from_rows (export_rows [qC8]) 1).map (fun q => q.correct_answer)
      = ["B"]) := by
  refine ⟨by decide, by decide, by decide, by decide, by decide, by decide⟩

/-- `Nat.digitChar` only ever returns a digit, a letter or `*` — never a
whitespace character. -/
theorem digitChar_isWhitespace (n : Nat) : (Nat.digitChar n).isWhitespace = false := by
  rcases Nat.lt_or_ge n 16 with h | h
  · interval_cases n <;> decide
  · have hstar : Nat.digitChar n = '*' := by
      unfold Nat.digitChar
      iterate 16
        rw [if_neg (show ¬ n = _ by omega)]
    rw [hstar]
    decide

theorem toDigitsCore_ne_nil (b : Nat) :
    ∀ (fuel n : Nat) (ds : List Char), ¬ ds = [] ∨ ¬ fuel = 0 →
      ¬ Nat.toDigitsCore b fuel n ds = [] := by
  intro fuel
  induction fuel with
  | zero =>
    intro n ds h
    rcases h with h | h
    · simpa [Nat.toDigitsCore] using h
    · exact absurd rfl h
  | succ fuel ih =>
    intro n ds _
    simp only [Nat.toDigitsCore]
    split
    · simp
    · exact ih _ _ (Or.inl (by simp))

theorem toDigitsCore_not_whitespace (b : Nat) :
    ∀ (fuel n : Nat) (ds : List Char),
      (∀ c ∈ ds, c.isWhitespace = false) →
      ∀ c ∈ Nat.toDigitsCore b fuel n ds, c.isWhitespace = false := by
  intro fuel
  induction fuel with
  | zero =>
    intro n ds h c hc
    exact h c (by simpa [Nat.toDigitsCore] using hc)
  | succ fuel ih =>
    intro n ds h c hc
    simp only [Nat.toDigitsCore] at hc
    split at hc
    · rcases List.mem_cons.mp hc with rfl | hmem
      · exact digitChar_isWhitespace _
      · exact h c hmem
    · refine ih _ _ ?_ c hc
      intro c' hc'
      rcases List.mem_cons.mp hc' with rfl | hmem
      · exact digitChar_isWhitespace _
      · exact h c' hmem

/-- The decimal rendering of a natural number contains a non-whitespace
character (it is a non-empty string of digit characters). -/
theorem repr_exists_not_whitespace (n : Nat) :
    ∃ c ∈ (Nat.repr n).data, c.isWhitespace = false := by
  have h1 : ¬ Nat.toDigits 10 n = [] :=
    toDigitsCore_ne_nil 10 (n + 1) n [] (Or.inr (by simp))
  have h2 : ∀ c ∈ Nat.toDigits 10 n, c.isWhitespace = false :=
    toDigitsCore_not_whitespace 10 (n + 1) n [] (by simp)
  obtain ⟨c, cs, hcons⟩ := List.exists_cons_of_ne_nil h1
  refine ⟨c, ?_, h2 c (by simp [hcons])⟩
  show c ∈ Nat.toDigits 10 n
  simp [hcons]

theorem dropWhile_exists_false {α : Type} (p : α → Bool) :
    ∀ l : List α, (∃ c ∈ l, p c = false) → ∃ c ∈ l.dropWhile p, p c = false := by
  intro l
  induction l with
  | nil => simp
  | cons a t ih =>
    rintro ⟨c, hc, hpc⟩
    by_cases hpa : p a
    · rw [List.dropWhile_cons, if_pos hpa]
      apply ih
      rcases List.mem_cons.mp hc with rfl | h
      · rw [hpa] at hpc; cases hpc
      · exact ⟨c, h, hpc⟩
    · rw [List.dropWhile_cons, if_neg hpa]
      exact ⟨a, List.mem_cons_self _ _, by simpa using hpa⟩

/-- A string containing a non-whitespace character does not strip to "". -/
theorem strip_ne_empty {s : String} (h : ∃ c ∈ s.data, c.isWhitespace = false) :
    ¬ strip s = "" := by
  intro heq
  have hdata : ((s.data.dropWhile Char.isWhitespace).reverse.dropWhile
      Char.isWhitespace).reverse = ([] : List Char) := congrArg String.data heq
  obtain ⟨c, hc1, hpc⟩ := dropWhile_exists_false Char.isWhitespace s.data h
  obtain ⟨c', hc3, _⟩ := dropWhile_exists_false Char.isWhitespace _
    ⟨c, List.mem_reverse.mpr hc1, hpc⟩
  rw [List.reverse_eq_nil_iff.mp hdata] at hc3
  cases hc3

/-- The exported id cell `str(q.id)` never strips to blank, so `parse_csv_row`
never skips an exported data row. -/
theorem strip_toString_ne_empty (n : Nat) : ¬ strip (toString n) = "" :=
  strip_ne_empty (repr_exists_not_whitespace n)

/-- C8 amended: re-ingesting the export preserves each question's correct
answer up to the ingestion's stripping — unconditionally, since the exported
id cell is never blank and hence no data row is skipped; question text and
choice set are NOT preserved, as the counterexample shows. -/
theorem export_reingest_correct_answer (questions : List Question) (e : Nat) :
    (load_questions_from_rows (export_rows questions) e).map (fun q => q.correct_answer)
      = questions.map (fun q => strip q.correct_answer) := by
  have key : load_questions_from_rows (export_rows questions) e
      = questions.filterMap (fun q =>
          (parse_csv_row [toString q.id, q.question_text,
            join_sep " | " (split_pipe q.choices), q.correct_answer]).map
            (fun p => (⟨0, e, p.1, p.2.1, p.2.2⟩ : Question))) := by
    simp only [load_questions_from_rows, export_rows, List.drop_succ_cons,
      List.drop_zero]
    rw [List.filterMap_map]
    rfl
  rw [key]
  clear key
  induction questions with
  | nil => rfl
  | cons q qs ih =>
    have hid : ¬ strip (toString q.id) = "" := strip_toString_ne_empty q.id
    have hsome : parse_csv_row [toString q.id, q.question_text,
        join_sep " | " (split_pipe q.choices), q.correct_answer]
        = some (strip (toString q.id),
            join_sep "|" ((([q.question_text,
              join_sep " | " (split_pipe q.choices)]).map strip).filter
                (fun c => ¬ c = "")),
            strip q.correct_answer) := by
      rw [parse_csv_row, if_neg]
      · rfl
      · simp [hid]
    simp only [List.filterMap_cons, hsome, Option.map_some', List.map_cons]
    exact congrArg₂ _ rfl ih

end ExamApp
